import Mathlib

/-!
Verification of the lap-delta pipeline of the instrument-cluster repository
(`src/instrument_cluster/ui/widgets/delta_widget.py`, together with
`telemetry/feed.py` and `ui/widgets/predictedlap_widget.py`).

Modelling choices:
* IEEE-754 doubles are modelled as exact rationals (`ℚ`).  Every constant in
  the source (`5.0`, `60.0`, `12.0`, `30.0`, `5.0`, `0.02`, `0.4`, `1e-3`,
  `1e-6`) is exactly representable; rounding of float arithmetic is out of
  scope.
* `math.sqrt` / `np.hypot` is modelled by `ratSqrt`, which is exact whenever
  the argument is the square of a rational (all concrete inputs in this file
  are of that shape) and a floor-valued approximation otherwise.  The general
  theorems below use only its nonnegativity.
* `scipy.spatial.cKDTree` is an exact nearest-neighbour index over segment
  midpoints; it is modelled by a first-wins argmin over squared distances
  (only the returned index is used by the source).
* `scipy.interpolate.PchipInterpolator` is rational arithmetic throughout
  (Fritsch–Carlson derivatives, cubic Hermite evaluation) and is modelled
  exactly by `pchipDerivs` / `pchipEval`.  Constructing it with fewer than two
  knots, or with knots that are not strictly increasing, raises; the builder
  model returns `none` in that case (the widget then exposes no reference:
  `_has_lap_reference()` is false).
* `DeltaWidget._project_to_s` returns `(s, math.sqrt(best_d2), idx)`; the
  model returns the squared lateral distance `best_d2` instead of its square
  root, and the single downstream comparison `d_perp > max_lateral_m (12.0)`
  is modelled on squares as `d2 > 144`.
* The five reference attributes `_tref_spline`, `_seg_mid_kdtree`, `_ref_s`,
  `_ref_t`, `_lap_len_m` are created, cleared and tested as a group in the
  source; they are modelled as a single `Option Reference` field (absent
  attribute and `None` are both `none`, matching the `getattr(..., None)`
  tests in `_has_lap_reference`).
* The cosine ease `0.5 - 0.5*cos(pi*t)` is transcendental; the widget step is
  parametrised over the easing function `ease : ℚ → ℚ`.  No claim depends on
  its values (whenever a claim's scenario reaches the easing, the animation
  start and target coincide).
-/

set_option maxRecDepth 100000

namespace InstrumentCluster

/-- Sign function as computed by `np.sign` (`-1`, `0`, `1`). -/
def sgn (q : ℚ) : ℚ := if q < 0 then -1 else if 0 < q then 1 else 0

/-- Heron iteration for the floor square root of `n`, with explicit fuel so
that it is structurally recursive (and hence evaluates inside the kernel). -/
def natSqrtIter : Nat → Nat → Nat → Nat
  | 0, _, g => g
  | fuel + 1, n, g =>
      let g2 := (g + n / g) / 2
      if g2 < g then natSqrtIter fuel n g2 else g

/-- Floor square root on `Nat` (Heron's method; `n` steps of fuel are far more
than the iteration ever uses). -/
def natSqrtF (n : Nat) : Nat := if n ≤ 1 then n else natSqrtIter n n (n / 2)

/-- Square root on `ℚ`: exact when the argument is the square of a rational,
floor-valued otherwise, `0` on nonpositive input.  Stands for the IEEE double
`sqrt` of the source; the development only uses exact cases and
nonnegativity. -/
def ratSqrt (q : ℚ) : ℚ :=
  if q ≤ 0 then 0
  else
    let n := q.num.toNat
    let d := q.den
    if natSqrtF n * natSqrtF n = n ∧ natSqrtF d * natSqrtF d = d then
      (natSqrtF n : ℚ) / (natSqrtF d : ℚ)
    else (natSqrtF (n * d) : ℚ) / (d : ℚ)

lemma ratSqrt_nonneg (q : ℚ) : 0 ≤ ratSqrt q := by
  unfold ratSqrt
  split
  · exact le_refl 0
  · dsimp only
    split
    · exact div_nonneg (Nat.cast_nonneg _) (Nat.cast_nonneg _)
    · exact div_nonneg (Nat.cast_nonneg _) (Nat.cast_nonneg _)

/-- Euclidean length of the vector `(dx, dz)` (`np.hypot` of the source). -/
def hypotQ (dx dz : ℚ) : ℚ := ratSqrt (dx * dx + dz * dz)

lemma hypotQ_nonneg (dx dz : ℚ) : 0 ≤ hypotQ dx dz := ratSqrt_nonneg _

/-- Squared Euclidean distance between two points. -/
def dist2 (a b : ℚ × ℚ) : ℚ := (a.1 - b.1) * (a.1 - b.1) + (a.2 - b.2) * (a.2 - b.2)

/-- Cumulative sums of a list starting from `acc` (`np.cumsum`). -/
def cumt (acc : ℚ) : List ℚ → List ℚ
  | [] => []
  | l :: ls => (acc + l) :: cumt (acc + l) ls

/-- Boolean-mask selection (`numpy` fancy indexing `a[keep]`). -/
def maskFilter {α : Type} : List Bool → List α → List α
  | b :: bs, a :: as => if b then a :: maskFilter bs as else maskFilter bs as
  | _, _ => []

@[simp] lemma maskFilter_nil_left {α : Type} (as : List α) :
    maskFilter [] as = [] := by cases as <;> rfl

@[simp] lemma maskFilter_nil_right {α : Type} (bs : List Bool) :
    maskFilter bs ([] : List α) = [] := by cases bs <;> rfl

@[simp] lemma maskFilter_cons {α : Type} (b : Bool) (bs : List Bool) (a : α) (as : List α) :
    maskFilter (b :: bs) (a :: as) =
      if b then a :: maskFilter bs as else maskFilter bs as := rfl

lemma maskFilter_length_congr {α β : Type} :
    ∀ (bs : List Bool) (as : List α) (cs : List β), as.length = cs.length →
      (maskFilter bs as).length = (maskFilter bs cs).length
  | [], as, cs, _ => by simp
  | _ :: _, [], cs, h => by
      cases cs with
      | nil => simp
      | cons c cs => simp at h
  | _ :: _, _ :: _, [], h => by simp at h
  | b :: bs, a :: as, c :: cs, h => by
      simp only [List.length_cons, Nat.add_right_cancel_iff] at h
      cases b with
      | false => simpa using maskFilter_length_congr bs as cs h
      | true => simpa using maskFilter_length_congr bs as cs h

/-- Segment data of the reference path: start point `(px, pz)`, segment vector
`(dx, dz)`, length `L`, and curvilinear coordinate `s0` of the segment start
(the parallel arrays `_seg_px/_seg_pz/_seg_dx/_seg_dz/_seg_L/_seg_s0`). -/
structure Seg where
  px : ℚ
  pz : ℚ
  dx : ℚ
  dz : ℚ
  L : ℚ
  s0 : ℚ
deriving DecidableEq, Repr

/-- Built reference lap: knots `(_ref_s, _ref_t)`, total length `_lap_len_m`
and segment table (plus the midpoint index implied by `segs`). -/
structure Reference where
  ref_s : List ℚ
  ref_t : List ℚ
  lap_len : ℚ
  segs : List Seg
deriving DecidableEq, Repr

/-- Lengths of the polyline segments between consecutive samples
(`seg_len = np.hypot(np.diff(xs), np.diff(zs))`). -/
def segLens (xs zs : List ℚ) : List ℚ :=
  List.zipWith (fun a b => hypotQ (b.1 - a.1) (b.2 - a.2)) (xs.zip zs) (xs.zip zs).tail

/-- Curvilinear coordinates of the samples
(`s = np.concatenate(([0.0], np.cumsum(seg_len)))`). -/
def sVals (xs zs : List ℚ) : List ℚ := 0 :: cumt 0 (segLens xs zs)

/-- Mask keeping the first sample and every segment longer than `1e-3`
(`keep = np.concatenate(([True], seg_len > 1e-3))`). -/
def keepMask (xs zs : List ℚ) : List Bool :=
  true :: (segLens xs zs).map (fun l => decide ((1/1000 : ℚ) < l))

/-- Curvilinear coordinates surviving the zero-length-segment filter
(`s[keep]`). -/
def survivors (xs zs : List ℚ) : List ℚ := maskFilter (keepMask xs zs) (sVals xs zs)

/-- Strict-increase check on a list of rationals (the `x` validation of the
`PchipInterpolator` constructor). -/
def chainLt : List ℚ → Bool
  | a :: b :: rest => decide (a < b) && chainLt (b :: rest)
  | _ => true

lemma chainLt_iff : ∀ l : List ℚ, chainLt l = true ↔ List.Chain' (· < ·) l
  | [] => by simp [chainLt]
  | [a] => by simp [chainLt]
  | a :: b :: rest => by
      rw [List.chain'_cons]
      simp only [chainLt, Bool.and_eq_true, decide_eq_true_eq]
      exact and_congr Iff.rfl (chainLt_iff (b :: rest))

/-- Segment table of the filtered polyline, pairing consecutive kept points
with the `s`-coordinate of the segment start (`_ref_s[:-1]`). -/
def segsOf : List (ℚ × ℚ) → List ℚ → List Seg
  | p0 :: p1 :: ps, sv :: svs =>
      { px := p0.1, pz := p0.2, dx := p1.1 - p0.1, dz := p1.2 - p0.2,
        L := hypotQ (p1.1 - p0.1) (p1.2 - p0.2), s0 := sv } :: segsOf (p1 :: ps) svs
  | _, _ => []

/-- Abstraction of `DeltaWidget._build_reference_from_current` to its
completed-run outcome, acting on the three parallel sample buffers `_xs`,
`_zs`, `_times`: `some` of the reference the method installs when it runs to
completion, `none` when it installs no complete reference — because fewer
than two samples are buffered (the early `return` of the source) or because
the `PchipInterpolator` constructor raises (fewer than two knots survive the
`1e-3` filter, or the knots are not strictly increasing).  The raise is NOT a
graceful return: `buildFull` below is the faithful attribute-level model of
that path, recording the writes to `_ref_s`/`_ref_t`/`_lap_len_m` that have
already happened when the constructor raises, and the exception aborting the
frame.  `update` below uses `build`; this is exact for every run in which the
builder does not raise, and in the widget the raising branch is unreachable
(recorded samples are at least 5 m apart, so the filter never drops a point).
Segments shorter than `1e-6` are dropped from the segment table exactly as by
the `valid` mask of the source. -/
def build (xs zs ts : List ℚ) : Option Reference :=
  if xs.length < 2 then none
  else
    let fs := survivors xs zs
    let fxs := maskFilter (keepMask xs zs) xs
    let fzs := maskFilter (keepMask xs zs) zs
    let fts := maskFilter (keepMask xs zs) ts
    if fs.length < 2 then none
    else if ¬ chainLt fs then none
    else
      let segs := (segsOf (fxs.zip fzs) fs).filter (fun g => (1/1000000 : ℚ) < g.L)
      some { ref_s := fs, ref_t := fts, lap_len := fs.getLastD 0, segs := segs }

/-- Attribute-level state of the five reference attributes of the widget:
`_ref_s`, `_ref_t`, `_lap_len_m`, `_tref_spline` (represented by the knot
pair the constructed `PchipInterpolator` captured) and the segment data
(`_seg_*` arrays together with `_seg_mid_kdtree`). -/
structure RefAttrs where
  ref_s : Option (List ℚ)
  ref_t : Option (List ℚ)
  lap_len : Option ℚ
  spline : Option (List ℚ × List ℚ)
  seg_tab : Option (List Seg)
deriving DecidableEq, Repr

/-- Model of `DeltaWidget._has_lap_reference` on the attribute state:
`_ref_s` and `_ref_t` non-`None`, `_ref_s.size >= 2`, `_tref_spline` and
`_seg_mid_kdtree` non-`None`. -/
def RefAttrs.hasLap (st : RefAttrs) : Bool :=
  st.ref_s.isSome && st.ref_t.isSome && decide (2 ≤ (st.ref_s.getD []).length) &&
    st.spline.isSome && st.seg_tab.isSome

/-- Attribute state corresponding to a completely built `Reference`. -/
def refAttrsOf (r : Reference) : RefAttrs :=
  { ref_s := some r.ref_s, ref_t := some r.ref_t, lap_len := some r.lap_len,
    spline := some (r.ref_s, r.ref_t), seg_tab := some r.segs }

/-- Faithful attribute-level model of `_build_reference_from_current`,
including its error path.  With fewer than two samples the method returns
without touching anything (`Except.ok` of the unchanged state).  Otherwise it
first overwrites `_ref_s`, `_ref_t` and `_lap_len_m` (lines 416-418) and only
then constructs the `PchipInterpolator`, which raises `ValueError` when fewer
than two knots survived the `1e-3` filter or when the knots are not strictly
increasing: `Except.error` carries the partially overwritten state — any
previously built reference's knot arrays are clobbered while `_tref_spline`
and the segment data keep their stale old values — and the exception
propagates out of `DeltaWidget.update`, aborting the frame.  On success
(`Except.ok`) all five attributes hold the new reference. -/
def buildFull (xs zs ts : List ℚ) (st : RefAttrs) : Except RefAttrs RefAttrs :=
  if xs.length < 2 then .ok st
  else
    let fs := survivors xs zs
    let fxs := maskFilter (keepMask xs zs) xs
    let fzs := maskFilter (keepMask xs zs) zs
    let fts := maskFilter (keepMask xs zs) ts
    let st1 := { st with
      ref_s := some fs, ref_t := some fts, lap_len := some (fs.getLastD 0) }
    if fs.length < 2 then .error st1
    else if ¬ chainLt fs then .error st1
    else
      .ok { st1 with
        spline := some (fs, fts),
        seg_tab := some ((segsOf (fxs.zip fzs) fs).filter
          (fun g => (1/1000000 : ℚ) < g.L)) }

/-! ### PCHIP interpolator (`scipy.interpolate.PchipInterpolator`) -/

/-- Endpoint derivative of PCHIP (scipy `_edge_case`): one-sided three-point
estimate, zeroed or capped to preserve monotonicity. -/
def edgeCase (h0 h1 m0 m1 : ℚ) : ℚ :=
  let d := ((2 * h0 + h1) * m0 - h0 * m1) / (h0 + h1)
  if sgn d ≠ sgn m0 then 0
  else if sgn m0 ≠ sgn m1 ∧ |d| > 3 * |m0| then 3 * m0
  else d

/-- Interior derivatives of PCHIP: `0` at local extrema, weighted harmonic mean
of the adjacent slopes otherwise.  Arguments are the interval widths `hk` and
slopes `mk`; the result has two fewer entries. -/
def interiorDerivs : List ℚ → List ℚ → List ℚ
  | h0 :: h1 :: hs, m0 :: m1 :: ms =>
      (if sgn m0 ≠ sgn m1 ∨ m0 = 0 ∨ m1 = 0 then 0
       else
         let w1 := 2 * h1 + h0
         let w2 := h1 + 2 * h0
         (w1 + w2) / (w1 / m0 + w2 / m1)) :: interiorDerivs (h1 :: hs) (m1 :: ms)
  | _, _ => []

/-- Derivatives of PCHIP at every knot (`_find_derivatives`): slope replication
for two knots, otherwise edge formulas at the ends and harmonic means in the
interior. -/
def pchipDerivs (xs ys : List ℚ) : List ℚ :=
  let hk := List.zipWith (fun a b => b - a) xs xs.tail
  let mk := List.zipWith (fun dy h => dy / h) (List.zipWith (fun a b => b - a) ys ys.tail) hk
  match hk, mk with
  | [_], [m] => [m, m]
  | h0 :: h1 :: hs, m0 :: m1 :: ms =>
      edgeCase h0 h1 m0 m1 :: (interiorDerivs (h0 :: h1 :: hs) (m0 :: m1 :: ms) ++
        [match (h0 :: h1 :: hs).reverse, (m0 :: m1 :: ms).reverse with
         | hl :: hp :: _, ml :: mp :: _ => edgeCase hl hp ml mp
         | _, _ => 0])
  | _, _ => []

/-- Cubic Hermite polynomial on `[x0, x1]` with values `y0, y1` and derivatives
`d0, d1`, evaluated at `x` (the `PPoly` piece scipy constructs from the PCHIP
derivatives). -/
def hermite (x0 x1 y0 y1 d0 d1 x : ℚ) : ℚ :=
  let h := x1 - x0
  let m := (y1 - y0) / h
  let u := x - x0
  y0 + d0 * u + ((3 * m - 2 * d0 - d1) / h) * u ^ 2 + ((d0 + d1 - 2 * m) / (h * h)) * u ^ 3

/-- Index of the interpolation interval containing `x` (`PPoly` interval
search; values left of the first knot use the first interval and values right
of the last knot the last interval, i.e. polynomial extrapolation). -/
def findI : List ℚ → ℚ → Nat
  | _ :: x1 :: x2 :: rest, x => if x < x1 then 0 else findI (x1 :: x2 :: rest) x + 1
  | _, _ => 0

/-- Evaluation of the PCHIP interpolant with knots `(xs, ys)` at `x`
(`self._tref_spline(s)` of the source). -/
def pchipEval (xs ys : List ℚ) (x : ℚ) : ℚ :=
  let ds := pchipDerivs xs ys
  let j := findI xs x
  hermite (xs.getD j 0) (xs.getD (j + 1) 0) (ys.getD j 0) (ys.getD (j + 1) 0)
    (ds.getD j 0) (ds.getD (j + 1) 0) x

/-! ### Projection onto the reference path (`DeltaWidget._project_to_s`) -/

/-- Midpoint of a reference segment (the points indexed by
`_seg_mid_kdtree`). -/
def Seg.mid (g : Seg) : ℚ × ℚ := (g.px + g.dx / 2, g.pz + g.dz / 2)

/-- Index of the segment whose midpoint is nearest to `q`
(`_seg_mid_kdtree.query((qx, qz), k=1)`; the tree is exact and only the index
is used).  Ties go to the smaller index; the empty table yields `0`, matching
the out-of-range index a query on an empty tree reports. -/
def nearestMidAux (q : ℚ × ℚ) : List Seg → Nat → Option (Nat × ℚ) → Option (Nat × ℚ)
  | [], _, best => best
  | g :: gs, j, best =>
      nearestMidAux q gs (j + 1)
        (match best with
         | none => some (j, dist2 g.mid q)
         | some (bi, bd) =>
             if dist2 g.mid q < bd then some (j, dist2 g.mid q) else some (bi, bd))

def nearestMidIdx (segs : List Seg) (q : ℚ × ℚ) : Nat :=
  (nearestMidAux q segs 0 none).elim 0 (·.1)

/-- Candidate segment indices: the nearest-midpoint segment and its immediate
neighbours (`cand = [i] (+ [i-1]) (+ [i+1])`). -/
def candList (i nseg : Nat) : List Nat :=
  [i] ++ (if 0 < i then [i - 1] else []) ++ (if i + 1 < nseg then [i + 1] else [])

/-- Clamped projection of `q` onto candidate segment `j`: parametric
coordinate `t` clamped to `[0,1]`, segment length `L`, and squared distance
`d2` from `q` to the foot point.  `none` models the `continue` taken when
`L <= 1e-6` (an out-of-range index would raise in the source and cannot occur
for the candidate lists built above). -/
def projStep (segs : List Seg) (q : ℚ × ℚ) (j : Nat) : Option (ℚ × ℚ × ℚ) :=
  match segs.get? j with
  | none => none
  | some g =>
      if g.L ≤ 1/1000000 then none
      else
        let t0 := ((q.1 - g.px) * g.dx + (q.2 - g.pz) * g.dz) / (g.L * g.L)
        let t := if t0 < 0 then 0 else if 1 < t0 then 1 else t0
        let fx := g.px + t * g.dx
        let fz := g.pz + t * g.dz
        some (t, g.L, (q.1 - fx) * (q.1 - fx) + (q.2 - fz) * (q.2 - fz))

/-- State left behind by the first candidate loop of `_project_to_s`: the
minimising `(best_s, best_d2)` pair it computes (which the second loop then
discards), and the values of the Python locals `t`/`d2` and `L` after the last
iteration (read back by the second loop). -/
structure Loop1Acc where
  best : Option (ℚ × ℚ)
  lastTD : Option (ℚ × ℚ)
  lastL : Option ℚ
deriving DecidableEq, Repr

/-- First candidate loop of `_project_to_s`: a faithful fold recording both
the computed minimum and the stale loop variables. -/
def loop1 (segs : List Seg) (q : ℚ × ℚ) (cand : List Nat) : Loop1Acc :=
  cand.foldl
    (fun acc j =>
      match segs.get? j with
      | none => acc
      | some g =>
          let acc := { acc with lastL := some g.L }
          match projStep segs q j with
          | none => acc
          | some (t, _, d2) =>
              let acc := { acc with lastTD := some (t, d2) }
              match acc.best with
              | none => { acc with best := some (g.s0 + t * g.L, d2) }
              | some (bs, bd) =>
                  if d2 < bd then { acc with best := some (g.s0 + t * g.L, d2) }
                  else { acc with best := some (bs, bd) })
    ⟨none, none, none⟩

/-- Second candidate loop of `_project_to_s` (the block that resets
`best_s, best_d2, best_idx` and contains only the placeholder comment): it
re-reads the stale `t`, `L`, `d2` left by the first loop, so the first
candidate always wins the `d2 < best_d2` comparison against infinity and every
later comparison `d2 < d2` fails. -/
def loop2 (segs : List Seg) (cand : List Nat) (t L d2 : ℚ) : Option (ℚ × ℚ × Nat) :=
  cand.foldl
    (fun acc j =>
      match acc with
      | none =>
          (match segs.get? j with
           | some g => some (g.s0 + t * L, d2, j)
           | none => none)
      | some (bs, bd, bi) =>
          if d2 < bd then
            (match segs.get? j with
             | some g => some (g.s0 + t * L, d2, j)
             | none => some (bs, bd, bi))
          else some (bs, bd, bi))
    none

/-- Model of `DeltaWidget._project_to_s` as written (including the second loop
that discards the first loop's minimum).  Returns `(best_s, best_d2, best_idx)`
where `best_d2` is the squared lateral distance (the source returns
`math.sqrt(best_d2)`; the single downstream use compares it with `12.0`, which
is modelled on squares).  Returns `none` when the source would return `None`
or raise (`NameError` when no candidate passed the length check, which cannot
happen for a reference with a valid segment). -/
def project_to_s (r : Reference) (q : ℚ × ℚ) : Option (ℚ × ℚ × Nat) :=
  let i := nearestMidIdx r.segs q
  let cand := candList i r.segs.length
  let a := loop1 r.segs q cand
  match a.lastTD, a.lastL with
  | some (t, d2), some L => loop2 r.segs cand t L d2
  | _, _ => none

/-! ### Gating, continuity and delta (`DeltaWidget._current_vs_reference`) -/

/-- Model of `DeltaWidget._current_vs_reference`.  Input: the reference, the
current lap-elapsed time `_lap_time_s`, the tracking state `(_last_s,
_last_seg_idx)` and the query position.  Output: the optional delta and the
updated tracking state (unchanged on every early-return path).  The lateral
gate `d_perp > max_lateral_m (12.0)` is evaluated on squared distances as
`d2 > 144`. -/
def currentVsRef (r : Reference) (lap_time : ℚ) (last_s : Option ℚ)
    (last_seg : Option Nat) (q : ℚ × ℚ) : Option ℚ × Option ℚ × Option Nat :=
  if r.ref_s.length < 2 then (none, last_s, last_seg)
  else
    match project_to_s r q with
    | none => (none, last_s, last_seg)
    | some (s_raw, d2, seg_idx) =>
        match (if (144 : ℚ) < d2 then last_s else some s_raw) with
        | none => (none, last_s, last_seg)
        | some s1 =>
            let s2 := min (max 0 s1) r.lap_len
            let s3 :=
              match last_s with
              | none => s2
              | some l =>
                  let ds := s2 - l
                  if 30 < ds then l + 30 else if ds < -5 then l - 5 else s2
            (some (lap_time - pchipEval r.ref_s r.ref_t s3), some s3, some seg_idx)

/-! ### Widget state and per-frame step (`DeltaWidget.update` and friends) -/

/-- Telemetry frame fields the delta widget reads (`packet.flags.paused`,
`packet.flags.loading_or_processing`, `packet.lap_count`, `packet.position`). -/
structure Frame where
  paused : Bool
  loading : Bool
  lap_count : Int
  pos : Option (ℚ × ℚ)
deriving DecidableEq, Repr

/-- Mutable state of `DeltaWidget` relevant to the delta pipeline, plus the
two `Feed` fields it publishes.  `display` is the value currently rendered by
`set_delta` (`none` for the empty string); `best_time = none` stands for
`float("inf")`; `ref` groups the five reference attributes (see the header
note).  The debug-only `_best_pts_np`/`_best_times_np` arrays are not
modelled. -/
structure WState where
  lap_index : Int
  lap_time : ℚ
  xs : List ℚ
  zs : List ℚ
  times : List ℚ
  last_v : Option (ℚ × ℚ)
  best_time : Option ℚ
  ref : Option Reference
  disp_delta : Option ℚ
  anim_start : Option ℚ
  anim_target : Option ℚ
  anim_t : ℚ
  last_s : Option ℚ
  last_seg_idx : Option Nat
  display : Option ℚ
  feed_delta : ℚ
  feed_has : Bool
deriving DecidableEq, Repr

/-- State after `DeltaWidget.__init__` (with `Feed()` freshly constructed:
`delta_s = 0.0`, `has_delta = False`). -/
def initState : WState :=
  { lap_index := -1, lap_time := 0, xs := [], zs := [], times := [], last_v := none,
    best_time := none, ref := none, disp_delta := none, anim_start := none,
    anim_target := none, anim_t := 0, last_s := none, last_seg_idx := none,
    display := none, feed_delta := 0, feed_has := false }

/-- Model of the `lap_index` property setter: on a changed value it resets the
lap timer and clears the sample buffers and the anchor; the trailing `for`
loop then sets all five reference attributes to `None` unconditionally (it is
outside the `if`), so every assignment to `lap_index` drops the reference. -/
def setLapIndex (st : WState) (v : Int) : WState :=
  let st1 :=
    if v ≠ st.lap_index then
      { st with lap_index := v, lap_time := 0, xs := [], zs := [], times := [],
                last_v := none }
    else st
  { st1 with ref := none }

/-- Model of `min(self._best_time_s, prev_time)` with `none` as infinity. -/
def minO : Option ℚ → ℚ → Option ℚ
  | none, x => some x
  | some b, x => some (min b x)

/-- Model of the sample recorder inside `DeltaWidget.update` (the
`running and pos is not None` block): the first position of a lap is always
kept; a later position is kept iff its squared distance to the last kept
anchor lies in `[min_dist_sq, max_dist_sq] = [25, 3600]`; a rejected position
changes nothing. -/
def recordStep (st : WState) (vx vz : ℚ) : WState :=
  match st.last_v with
  | none =>
      { st with last_v := some (vx, vz), xs := st.xs ++ [vx], zs := st.zs ++ [vz],
                times := st.times ++ [st.lap_time] }
  | some (lx, lz) =>
      let dx := vx - lx
      let dz := vz - lz
      let d2 := dx * dx + dz * dz
      if 25 ≤ d2 ∧ d2 ≤ 3600 then
        { st with last_v := some (vx, vz), xs := st.xs ++ [vx], zs := st.zs ++ [vz],
                  times := st.times ++ [st.lap_time] }
      else st

/-- Animation / publication step taken when `_current_vs_reference` returned a
delta (`raw`): retarget when the target moved by more than
`delta_change_eps = 0.02`, advance the easing clock by
`dt / max(1e-3, delta_anim_duration = 0.4)`, set the displayed value, publish
`feed.delta_s`/`feed.has_delta`.  `ease` stands for the cosine ease
`fun t => 0.5 - 0.5*cos(pi*t)`; the Python expression
`self._anim_target or raw` is `raw` both when the target is `None` and when it
is `0.0` (float falsiness). -/
def animStep (ease : ℚ → ℚ) (st : WState) (raw : ℚ) (dt : ℚ) : WState :=
  let st1 :=
    match st.disp_delta with
    | none =>
        { st with disp_delta := some raw, anim_target := some raw,
                  anim_start := some raw, anim_t := 0 }
    | some d =>
        let tgt := match st.anim_target with
          | none => raw
          | some v => if v = 0 then raw else v
        if (1/50 : ℚ) < |raw - tgt| then
          { st with anim_start := some d, anim_target := some raw, anim_t := 0 }
        else st
  let t' := min 1 (st1.anim_t + dt / max (1/1000) (2/5))
  let a0 := st1.anim_start.getD 0
  let a1 := st1.anim_target.getD 0
  let d' := a0 + ease t' * (a1 - a0)
  { st1 with anim_t := t', disp_delta := some d', display := some d',
             feed_delta := d', feed_has := true }

/-- Clearing branch of `DeltaWidget.update` (the `else` of the
`_has_lap_reference() and lap_index >= 2 and pos is not None` test):
`set_delta()` blanks the display and the easing state is dropped.  The feed is
not touched. -/
def clearBranch (st : WState) : WState :=
  { st with display := none, disp_delta := none, anim_start := none,
            anim_target := none, anim_t := 0 }

/-- Display phase of `DeltaWidget.update` (lines 298-335): with a reference
(`_has_lap_reference()`: the five attributes are non-`None` — grouped into the
`Option` — and `_ref_s.size >= 2`), a running comparison lap and a position,
project and either animate (delta available) or keep everything (delta
suppressed for this frame); otherwise take the clearing branch. -/
def displayPhase (ease : ℚ → ℚ) (st : WState) (pos : Option (ℚ × ℚ)) (dt : ℚ) : WState :=
  match st.ref, pos with
  | some r, some q =>
      if 2 ≤ r.ref_s.length ∧ 2 ≤ st.lap_index then
        let res := currentVsRef r st.lap_time st.last_s st.last_seg_idx q
        let st1 := { st with last_s := res.2.1, last_seg_idx := res.2.2 }
        match res.1 with
        | some raw => animStep ease st1 raw dt
        | none => st1
      else clearBranch st
  | _, _ => clearBranch st

/-- Model of `DeltaWidget.reset`: blank the display, assign `lap_index = -1`
through the setter, reset the timer, buffers, anchor and best time, and set
the five reference attributes to `None`.  The tracking state `_last_s`,
`_last_seg_idx` and the easing variables are not touched. -/
def reset (st : WState) : WState :=
  let st1 := setLapIndex { st with display := none } (-1)
  { st1 with lap_time := 0, xs := [], zs := [], times := [], last_v := none,
             best_time := none, ref := none }

/-- Lap count read from the packet (`int(getattr(packet, "lap_count", 0) or 0)`). -/
def lapCountOf : Option Frame → Int
  | none => 0
  | some f => f.lap_count

/-- Lap-transition phase of `DeltaWidget.update` (lines 263-274): on a changed
lap count, build the reference from the finished lap's buffers (when a lap was
running and at least one sample is buffered), track the best time, then assign
the new `lap_index` through the setter (which clears the buffers and — by its
trailing loop — the freshly built reference).  Uses the completed-run
abstraction `build`; the builder's raising path (see `buildFull`), which
would abort the frame, cannot occur here because buffered samples are at
least 5 m apart. -/
def transitionPhase (st : WState) (lap_count : Int) : WState :=
  if lap_count ≠ st.lap_index then
    let st0 :=
      if 0 < st.lap_index ∧ st.xs ≠ [] then
        let prev := st.lap_time
        let stb :=
          match build st.xs st.zs st.times with
          | some r => { st with ref := some r }
          | none => st
        { stb with best_time := minO st.best_time prev }
      else st
    setLapIndex st0 lap_count
  else st

/-- Running phase of `DeltaWidget.update` (lines 276-296): while not paused,
not loading and in a lap, advance the lap timer and feed the position (when
present) to the recorder. -/
def runPhase (st : WState) (paused loading : Bool) (pos : Option (ℚ × ℚ)) (dt : ℚ) : WState :=
  if paused = false ∧ loading = false ∧ 0 < st.lap_index then
    let st2a := { st with lap_time := st.lap_time + dt }
    match pos with
    | some q => recordStep st2a q.1 q.2
    | none => st2a
  else st

/-- Model of `DeltaWidget.update` for one frame.  `ease` abstracts the cosine
easing (see `animStep`). -/
def update (ease : ℚ → ℚ) (st : WState) (pk : Option Frame) (dt : ℚ) : WState :=
  let lap_count := lapCountOf pk
  let pos := match pk with | none => none | some f => f.pos
  let paused := match pk with | none => false | some f => f.paused
  let loading := match pk with | none => false | some f => f.loading
  if lap_count = 0 then
    if st.lap_index ≠ -1 then reset st else st
  else
    displayPhase ease (runPhase (transitionPhase st lap_count) paused loading pos dt) pos dt

/-! ### Feed consumers (`telemetry/feed.py`, `predictedlap_widget.py`) -/

/-- Option view of the published feed pair `(delta_s, has_delta)`:
`has_delta = False` encodes an unavailable delta. -/
def deltaOpt (st : WState) : Option ℚ := if st.feed_has then some st.feed_delta else none

/-- Predicate for a comparison being currently possible: a reference is
exposed and the widget is at least in lap 2 (the guard of the display
phase). -/
def comparisonPossible (st : WState) : Prop := st.ref.isSome = true ∧ 2 ≤ st.lap_index

/-- Predicted lap time as computed by `PredictedLapWidget.update`:
`last_lap_time * 1e-3 + (feed.delta_s if feed.has_delta else 0.0)`. -/
def predictedLapValue (feed_delta : ℚ) (feed_has : Bool) (last_lap_ms : ℚ) : ℚ :=
  last_lap_ms * (1/1000) + (if feed_has then feed_delta else 0)

/-- Displayed value after `PredictedLapWidget.update`: `1.0` on session reset
(`reset()` calls `set_lap(1.0)`), unchanged while `last_lap_time` is zero,
otherwise the predicted lap time. -/
def predictedUpdate (feed_delta : ℚ) (feed_has : Bool) (lap_count : Int)
    (last_lap_ms shown : ℚ) : ℚ :=
  if lap_count = 0 then 1
  else if last_lap_ms = 0 then shown
  else predictedLapValue feed_delta feed_has last_lap_ms

/-- Reachable widget states: the initial state and anything `update` produces
from a reachable state, for any frame, time step and easing function. -/
inductive Reachable : WState → Prop
  | init : Reachable initState
  | step : ∀ {s : WState} (ease : ℚ → ℚ) (pk : Option Frame) (dt : ℚ),
      Reachable s → Reachable (update ease s pk dt)

/-! ### Supporting lemmas -/

@[simp] lemma cumt_length (acc : ℚ) (L : List ℚ) : (cumt acc L).length = L.length := by
  induction L generalizing acc with
  | nil => rfl
  | cons l ls ih => simp [cumt, ih]

lemma getLastD_mem {α : Type} (l : List α) (d : α) (h : l ≠ []) : l.getLastD d ∈ l := by
  rw [List.getLastD_eq_getLast?, List.getLast?_eq_getLast l h, Option.getD_some]
  exact List.getLast_mem h

lemma mem_zipWith_hypot_nonneg :
    ∀ (ps qs : List (ℚ × ℚ)) (l : ℚ),
      l ∈ List.zipWith (fun a b => hypotQ (b.1 - a.1) (b.2 - a.2)) ps qs → 0 ≤ l
  | p :: ps, q :: qs, l, hl => by
      rcases List.mem_cons.mp hl with h | h
      · exact h ▸ hypotQ_nonneg _ _
      · exact mem_zipWith_hypot_nonneg ps qs l h
  | [], _, l, hl => by simp at hl
  | _ :: _, [], l, hl => by simp at hl

lemma segLens_nonneg (xs zs : List ℚ) : ∀ l ∈ segLens xs zs, 0 ≤ l := by
  intro l hl
  exact mem_zipWith_hypot_nonneg _ _ l hl

/-- Filtered cumulative sums stay strictly above any `prev ≤ acc`: the chain
and membership facts behind the builder invariants (kept segments are longer
than `1e-3 > 0` and dropped ones are nonnegative). -/
lemma maskFilter_cumt_chain :
    ∀ (L : List ℚ), (∀ l ∈ L, 0 ≤ l) → ∀ acc prev : ℚ, prev ≤ acc →
      List.Chain (· < ·) prev
        (maskFilter (L.map fun l => decide ((1/1000 : ℚ) < l)) (cumt acc L)) ∧
      ∀ x ∈ maskFilter (L.map fun l => decide ((1/1000 : ℚ) < l)) (cumt acc L), prev < x
  | [], _, acc, prev, _ => by simp [cumt]
  | l :: ls, hL, acc, prev, hle => by
      have hl0 : 0 ≤ l := hL l (List.mem_cons_self l ls)
      have hls : ∀ x ∈ ls, 0 ≤ x := fun x hx => hL x (List.mem_cons_of_mem l hx)
      simp only [cumt, List.map_cons, maskFilter_cons]
      by_cases hc : (1/1000 : ℚ) < l
      · rw [decide_eq_true hc, if_pos rfl]
        have hprev : prev < acc + l := lt_of_le_of_lt hle (by linarith)
        obtain ⟨hch, hmem⟩ := maskFilter_cumt_chain ls hls (acc + l) (acc + l) le_rfl
        refine ⟨List.Chain.cons hprev hch, ?_⟩
        intro x hx
        rcases List.mem_cons.mp hx with h | h
        · exact h ▸ hprev
        · exact lt_trans hprev (hmem x h)
      · rw [decide_eq_false hc]
        simp only [Bool.false_eq_true, if_false]
        exact maskFilter_cumt_chain ls hls (acc + l) prev (by linarith)

lemma survivors_cons (xs zs : List ℚ) :
    survivors xs zs =
      0 :: maskFilter ((segLens xs zs).map fun l => decide ((1/1000 : ℚ) < l))
        (cumt 0 (segLens xs zs)) := by
  simp [survivors, keepMask, sVals, maskFilter_cons]

lemma sVals_length (xs zs : List ℚ) (hz : xs.length = zs.length) (h1 : 1 ≤ xs.length) :
    (sVals xs zs).length = xs.length := by
  simp only [sVals, List.length_cons, cumt_length, segLens, List.length_zipWith,
    List.length_tail, List.length_zip, ← hz, min_self]
  omega

/-! ### Phase lemmas for the reachability invariant -/

lemma setLapIndex_ref (st : WState) (v : Int) : (setLapIndex st v).ref = none := by
  unfold setLapIndex
  split <;> rfl

lemma setLapIndex_feed (st : WState) (v : Int) :
    (setLapIndex st v).feed_has = st.feed_has := by
  unfold setLapIndex
  split <;> rfl

lemma reset_ref (st : WState) : (reset st).ref = none := rfl

lemma reset_feed (st : WState) : (reset st).feed_has = st.feed_has := by
  unfold reset
  rw [setLapIndex_feed]

lemma transitionPhase_ref (st : WState) (lc : Int) (h : st.ref = none) :
    (transitionPhase st lc).ref = none := by
  unfold transitionPhase
  split
  · rw [setLapIndex_ref]
  · exact h

lemma transitionPhase_feed (st : WState) (lc : Int) :
    (transitionPhase st lc).feed_has = st.feed_has := by
  unfold transitionPhase
  split
  · rw [setLapIndex_feed]
    split
    · dsimp only
      rcases build st.xs st.zs st.times with _ | r <;> rfl
    · rfl
  · rfl

lemma recordStep_ref (st : WState) (vx vz : ℚ) : (recordStep st vx vz).ref = st.ref := by
  unfold recordStep
  rcases st.last_v with _ | ⟨lx, lz⟩
  · rfl
  · dsimp only
    split <;> rfl

lemma recordStep_feed (st : WState) (vx vz : ℚ) :
    (recordStep st vx vz).feed_has = st.feed_has := by
  unfold recordStep
  rcases st.last_v with _ | ⟨lx, lz⟩
  · rfl
  · dsimp only
    split <;> rfl

lemma runPhase_ref (st : WState) (p l : Bool) (pos : Option (ℚ × ℚ)) (dt : ℚ) :
    (runPhase st p l pos dt).ref = st.ref := by
  unfold runPhase
  split
  · rcases pos with _ | q
    · rfl
    · rw [recordStep_ref]
  · rfl

lemma runPhase_feed (st : WState) (p l : Bool) (pos : Option (ℚ × ℚ)) (dt : ℚ) :
    (runPhase st p l pos dt).feed_has = st.feed_has := by
  unfold runPhase
  split
  · rcases pos with _ | q
    · rfl
    · rw [recordStep_feed]
  · rfl

lemma displayPhase_no_ref (ease : ℚ → ℚ) (st : WState) (pos : Option (ℚ × ℚ)) (dt : ℚ)
    (h : st.ref = none) : displayPhase ease st pos dt = clearBranch st := by
  unfold displayPhase
  rw [h]

lemma displayPhase_no_pos (ease : ℚ → ℚ) (st : WState) (dt : ℚ) :
    displayPhase ease st none dt = clearBranch st := by
  unfold displayPhase
  rcases h : st.ref with _ | r <;> rfl

/-- Invariant of every reachable widget state: the `lap_index` setter has
already cleared any built reference by the end of each frame (its trailing
loop runs on every assignment), so no reference is ever exposed between
frames, and consequently `feed.has_delta` is never set. -/
lemma reachable_no_ref {s : WState} (h : Reachable s) :
    s.ref = none ∧ s.feed_has = false := by
  induction h with
  | init => exact ⟨rfl, rfl⟩
  | step ease pk dt _ ih =>
      obtain ⟨href, hfeed⟩ := ih
      rename_i s' _
      rcases pk with _ | f
      · unfold update
        simp only [lapCountOf]
        rw [if_pos trivial]
        split
        · exact ⟨reset_ref s', by rw [reset_feed]; exact hfeed⟩
        · exact ⟨href, hfeed⟩
      · unfold update
        dsimp only [lapCountOf]
        split
        · split
          · exact ⟨reset_ref s', by rw [reset_feed]; exact hfeed⟩
          · exact ⟨href, hfeed⟩
        · have h2 : (runPhase (transitionPhase s' f.lap_count) f.paused f.loading
              f.pos dt).ref = none := by
            rw [runPhase_ref, transitionPhase_ref _ _ href]
          rw [displayPhase_no_ref _ _ _ _ h2]
          refine ⟨?_, ?_⟩
          · show (runPhase (transitionPhase s' f.lap_count) f.paused f.loading
              f.pos dt).ref = none
            exact h2
          · show (runPhase (transitionPhase s' f.lap_count) f.paused f.loading
              f.pos dt).feed_has = false
            rw [runPhase_feed, transitionPhase_feed]
            exact hfeed

/-! ### Shared concrete objects for the claim theorems -/

/-- Linear easing used to instantiate the abstract easing function in
concrete runs (no scenario below reaches an easing step whose value
matters). -/
def easeLin : ℚ → ℚ := fun t => t

/-- Reference built from the two samples `(0,0)` at `0 s` and `(1000,0)` at
`100 s` (equals `build [0, 1000] [0, 0] [0, 100]`). -/
def refLine1000 : Reference :=
  { ref_s := [0, 1000], ref_t := [0, 100], lap_len := 1000,
    segs := [{ px := 0, pz := 0, dx := 1000, dz := 0, L := 1000, s0 := 0 }] }

/-- Reference built from the two samples `(0,0)` at `0 s` and `(500,0)` at
`60 s` (equals `build [0, 500] [0, 0] [0, 60]`). -/
def refLine500 : Reference :=
  { ref_s := [0, 500], ref_t := [0, 60], lap_len := 500,
    segs := [{ px := 0, pz := 0, dx := 500, dz := 0, L := 500, s0 := 0 }] }

/-- Widget state with a built reference, a tracking lock and a displayed
delta, as reached after several comparison frames of lap 2. -/
def lockedState : WState :=
  { lap_index := 2, lap_time := 6, xs := [0, 50], zs := [0, 0], times := [0, 5],
    last_v := some (50, 0), best_time := some 100, ref := some refLine1000,
    disp_delta := some 1, anim_start := some 1, anim_target := some 1, anim_t := 1,
    last_s := some 50, last_seg_idx := some 0, display := some 1,
    feed_delta := 1, feed_has := true }

/-- Widget state in a running lap whose recorder anchor is at `(0, 0)`. -/
def anchoredState : WState :=
  { initState with
    lap_index := 1, lap_time := 3, xs := [0], zs := [0], times := [0],
    last_v := some (0, 0) }

/-! ### C7 — sample recorder gating -/

/-- C7: the first position of a lap is always kept; a later position is kept
iff its squared distance `d2` to the last kept anchor satisfies
`25 ≤ d2 ≤ 3600` (`5² ≤ d² ≤ 60²`); a rejected position leaves the recorder
state (anchor included) unchanged.  Concretely, from an anchor at the origin a
200 m jump and a 3 m step are dropped and a 50 m step is kept. -/
theorem C7_sample_gating :
    (∀ (st : WState) (vx vz : ℚ), st.last_v = none →
        (recordStep st vx vz).xs = st.xs ++ [vx] ∧
        (recordStep st vx vz).zs = st.zs ++ [vz] ∧
        (recordStep st vx vz).times = st.times ++ [st.lap_time] ∧
        (recordStep st vx vz).last_v = some (vx, vz)) ∧
    (∀ (st : WState) (lx lz vx vz : ℚ), st.last_v = some (lx, lz) →
        ((25 ≤ (vx - lx) * (vx - lx) + (vz - lz) * (vz - lz) ∧
            (vx - lx) * (vx - lx) + (vz - lz) * (vz - lz) ≤ 3600) →
          (recordStep st vx vz).xs = st.xs ++ [vx] ∧
          (recordStep st vx vz).zs = st.zs ++ [vz] ∧
          (recordStep st vx vz).times = st.times ++ [st.lap_time] ∧
          (recordStep st vx vz).last_v = some (vx, vz)) ∧
        (¬ (25 ≤ (vx - lx) * (vx - lx) + (vz - lz) * (vz - lz) ∧
            (vx - lx) * (vx - lx) + (vz - lz) * (vz - lz) ≤ 3600) →
          recordStep st vx vz = st)) ∧
    (recordStep anchoredState 200 0 = anchoredState ∧
      recordStep anchoredState 3 0 = anchoredState ∧
      (recordStep anchoredState 50 0).xs = [0, 50] ∧
      (recordStep anchoredState 50 0).last_v = some (50, 0)) := by
  refine ⟨?_, ?_, ?_⟩
  · intro st vx vz h
    unfold recordStep
    rw [h]
    exact ⟨rfl, rfl, rfl, rfl⟩
  · intro st lx lz vx vz h
    constructor
    · intro hd
      unfold recordStep
      rw [h]
      dsimp only
      rw [if_pos hd]
      exact ⟨rfl, rfl, rfl, rfl⟩
    · intro hd
      unfold recordStep
      rw [h]
      dsimp only
      rw [if_neg hd]
  · exact ⟨by with_unfolding_all decide, by with_unfolding_all decide,
      by with_unfolding_all decide, by with_unfolding_all decide⟩

/-- Witness for C7 at a concrete rejected teleport. -/
theorem C7_witness : recordStep anchoredState 200 0 = anchoredState :=
  (C7_sample_gating.2.1 anchoredState 0 0 200 0
      (by with_unfolding_all decide)).2 (by with_unfolding_all decide)

/-! ### C2 — session reset semantics -/

/-- C2 counterexample: a session reset (frame with `lap_count = 0` while a lap
is active) destroys the built reference — immediately afterwards the
reference is `none`, contradicting the claim that it stays retrievable.  The
tracking state and the easing state, which the claim says the reset clears,
survive it unchanged. -/
theorem C2_counterexample :
    lockedState.ref.isSome = true ∧ lockedState.lap_index ≠ -1 ∧
    (update easeLin lockedState (some ⟨false, false, 0, none⟩) 1).ref = none ∧
    (update easeLin lockedState (some ⟨false, false, 0, none⟩) 1).last_s = some 50 ∧
    (update easeLin lockedState (some ⟨false, false, 0, none⟩) 1).disp_delta = some 1 := by
  with_unfolding_all decide

/-- C2 (amended): a frame with `lap_count = 0` while a lap was active runs
`reset`, which clears the sample buffers, the anchor, the lap timer, the best
time and the display, and also clears the built reference (it is `none`
afterwards), while leaving the tracking state (`_last_s`, `_last_seg_idx`),
the easing state and the published feed values untouched. -/
theorem C2_reset_clears_reference :
    ∀ (ease : ℚ → ℚ) (st : WState) (pk : Option Frame) (dt : ℚ),
      lapCountOf pk = 0 → st.lap_index ≠ -1 →
      update ease st pk dt = reset st ∧
      (reset st).xs = [] ∧ (reset st).zs = [] ∧ (reset st).times = [] ∧
      (reset st).last_v = none ∧ (reset st).lap_time = 0 ∧
      (reset st).best_time = none ∧ (reset st).display = none ∧
      (reset st).ref = none ∧ (reset st).lap_index = -1 ∧
      (reset st).last_s = st.last_s ∧ (reset st).last_seg_idx = st.last_seg_idx ∧
      (reset st).disp_delta = st.disp_delta ∧ (reset st).anim_start = st.anim_start ∧
      (reset st).anim_target = st.anim_target ∧ (reset st).anim_t = st.anim_t ∧
      (reset st).feed_delta = st.feed_delta ∧ (reset st).feed_has = st.feed_has := by
  intro ease st pk dt h0 h1
  constructor
  · unfold update
    dsimp only
    rw [h0, if_pos rfl, if_pos h1]
  · unfold reset setLapIndex
    dsimp only
    rw [if_pos (Ne.symm h1)]
    exact ⟨rfl, rfl, rfl, rfl, rfl, rfl, rfl, rfl, rfl, rfl, rfl, rfl, rfl, rfl, rfl,
      rfl, rfl⟩

/-- Witness for C2 at a concrete state and reset frame. -/
theorem C2_witness :
    update easeLin lockedState (some ⟨false, false, 0, none⟩) 1 = reset lockedState :=
  (C2_reset_clears_reference easeLin lockedState (some ⟨false, false, 0, none⟩) 1
    (by with_unfolding_all decide) (by with_unfolding_all decide)).1

/-! ### C8 — missing-position frame -/

/-- C8 counterexample: a frame whose telemetry has no position while a
reference exists and `lap_index = 2` does not leave the displayed delta and
easing state untouched — the update takes the clearing branch, erasing the
display and the easing state (the reference itself survives and the session
is not reset). -/
theorem C8_counterexample :
    lockedState.disp_delta = some 1 ∧ lockedState.display = some 1 ∧
    lockedState.ref.isSome = true ∧
    (update easeLin lockedState (some ⟨false, false, 2, none⟩) 1).disp_delta = none ∧
    (update easeLin lockedState (some ⟨false, false, 2, none⟩) 1).display = none ∧
    (update easeLin lockedState (some ⟨false, false, 2, none⟩) 1).anim_target = none ∧
    (update easeLin lockedState (some ⟨false, false, 2, none⟩) 1).ref = lockedState.ref := by
  with_unfolding_all decide

/-- C8 (amended): a mid-lap frame with a missing position skips sample
recording and projection (buffers, anchor and tracking state unchanged, feed
and reference untouched), but instead of preserving the displayed value it
takes the clearing branch: the display is blanked and the easing state is
reset. -/
theorem C8_missing_position_frame :
    ∀ (ease : ℚ → ℚ) (st : WState) (f : Frame) (dt : ℚ),
      f.pos = none → f.lap_count = st.lap_index → st.lap_index ≠ 0 →
      (update ease st (some f) dt).xs = st.xs ∧
      (update ease st (some f) dt).zs = st.zs ∧
      (update ease st (some f) dt).times = st.times ∧
      (update ease st (some f) dt).last_v = st.last_v ∧
      (update ease st (some f) dt).last_s = st.last_s ∧
      (update ease st (some f) dt).last_seg_idx = st.last_seg_idx ∧
      (update ease st (some f) dt).ref = st.ref ∧
      (update ease st (some f) dt).feed_delta = st.feed_delta ∧
      (update ease st (some f) dt).feed_has = st.feed_has ∧
      (update ease st (some f) dt).display = none ∧
      (update ease st (some f) dt).disp_delta = none ∧
      (update ease st (some f) dt).anim_start = none ∧
      (update ease st (some f) dt).anim_target = none ∧
      (update ease st (some f) dt).anim_t = 0 := by
  intro ease st f dt hpos hlc hne
  have htr : transitionPhase st f.lap_count = st := by
    unfold transitionPhase
    rw [if_neg (by rw [hlc]; exact fun h => h rfl)]
  have hupd : update ease st (some f) dt =
      clearBranch (runPhase st f.paused f.loading none dt) := by
    unfold update
    dsimp only [lapCountOf]
    rw [hpos, if_neg (by rw [hlc]; exact hne), htr]
    exact displayPhase_no_pos ease _ dt
  rw [hupd]
  unfold runPhase
  split
  · exact ⟨rfl, rfl, rfl, rfl, rfl, rfl, rfl, rfl, rfl, rfl, rfl, rfl, rfl, rfl⟩
  · exact ⟨rfl, rfl, rfl, rfl, rfl, rfl, rfl, rfl, rfl, rfl, rfl, rfl, rfl, rfl⟩

/-- Witness for C8 at a concrete locked state and position-free frame. -/
theorem C8_witness :
    (update easeLin lockedState (some ⟨false, false, 2, none⟩) 1).display = none :=
  (C8_missing_position_frame easeLin lockedState ⟨false, false, 2, none⟩ 1
    rfl (by with_unfolding_all decide) (by with_unfolding_all decide)).2.2.2.2.2.2.2.2.2.1

/-! ### C3 — projection onto the reference path -/

/-- Reference the builder produces from the lap samples `(0,0) @ 0 s`,
`(100,0) @ 10 s`, `(110,0) @ 11 s`, `(210,0) @ 21 s`. -/
def kinkRef : Reference :=
  { ref_s := [0, 100, 110, 210], ref_t := [0, 10, 11, 21], lap_len := 210,
    segs := [{ px := 0, pz := 0, dx := 100, dz := 0, L := 100, s0 := 0 },
             { px := 100, pz := 0, dx := 10, dz := 0, L := 10, s0 := 100 },
             { px := 110, pz := 0, dx := 100, dz := 0, L := 100, s0 := 110 }] }

/-- C3: `_project_to_s` does not return the minimum-distance candidate's
triple.  On the reference built from `(0,0), (100,0), (110,0), (210,0)`,
querying the recorded sample `(100,0)` itself makes the first loop find the
true minimum (squared distance `0`, the point lies on the path), but the
second loop — which resets `best_s/best_d2/best_idx` and re-reads the stale
loop variables `t`, `L`, `d2` of candidate `i+1 = 2` — returns squared lateral
distance `100`, i.e. lateral `10 m`, violating `lateral ≈ 0`. -/
theorem C3_projection_returns_stale_candidate :
    build [0, 100, 110, 210] [0, 0, 0, 0] [0, 10, 11, 21] = some kinkRef ∧
    project_to_s kinkRef (100, 0) = some (100, 100, 1) ∧
    (loop1 kinkRef.segs (100, 0)
      (candList (nearestMidIdx kinkRef.segs (100, 0)) kinkRef.segs.length)).best =
        some (100, 0) := by
  refine ⟨?_, ?_, ?_⟩ <;> with_unfolding_all decide

/-! ### C4 — first lock of a lap -/

/-- C4 counterexample: on a 1000 m reference, at lap-elapsed time `1 s ≤ 2 s`
and raw projection `s_raw = 900 > 0.75 * 1000`, the first lock commits
`s = 900`, not `0`: `_current_vs_reference` contains no early-lap snap-to-zero
rule. -/
theorem C4_counterexample :
    (1 : ℚ) ≤ 2 ∧ (3 / 4 : ℚ) * refLine1000.lap_len < 900 ∧
    (currentVsRef refLine1000 1 none none (900, 0)).2.1 = some 900 ∧
    ((900 : ℚ) ≠ 0) := by
  refine ⟨?_, ?_, ?_, ?_⟩ <;> with_unfolding_all decide

/-- C4 (amended): on the first lock of a lap (`_last_s` is `None`), when the
lateral gate passes, the tracker commits the raw projected `s` clamped to the
lap domain, `min(max(0, s_raw), lap_len)`, for every lap-elapsed time — there
is no snap-to-zero rule for early-lap matches in the far tail. -/
theorem C4_first_lock_accepts_raw :
    ∀ (r : Reference) (lt : ℚ) (lseg : Option Nat) (q : ℚ × ℚ) (s_raw d2 : ℚ) (i : Nat),
      2 ≤ r.ref_s.length → project_to_s r q = some (s_raw, d2, i) → d2 ≤ 144 →
      (currentVsRef r lt none lseg q).2.1 = some (min (max 0 s_raw) r.lap_len) := by
  intro r lt lseg q s_raw d2 i hlen hproj hgate
  unfold currentVsRef
  rw [if_neg (by omega), hproj]
  dsimp only
  rw [if_neg (not_lt.mpr hgate)]

/-- Witness for C4 on the 1000 m reference (lateral gate passes with
`d2 = 0`). -/
theorem C4_witness :
    (currentVsRef refLine1000 1 none none (900, 0)).2.1 =
      some (min (max 0 900) refLine1000.lap_len) :=
  C4_first_lock_accepts_raw refLine1000 1 none (900, 0) 900 0 0
    (by with_unfolding_all decide) (by with_unfolding_all decide)
    (by with_unfolding_all decide)

/-! ### C6 — continuity clamp -/

/-- C6: whenever a previous committed `last_s = l` exists and the lateral gate
passes, the committed `s` of the frame lies in `[l - 5, l + 30]`
(`max_backtrack_m = 5`, `max_s_jump_m = 30`); concretely, with `last_s = 100`
and a raw projection of `500` on the 1000 m reference the committed value is
`130`. -/
theorem C6_continuity_clamp :
    (∀ (r : Reference) (lt l : ℚ) (lseg : Option Nat) (q : ℚ × ℚ) (s_raw d2 : ℚ) (i : Nat),
        2 ≤ r.ref_s.length → project_to_s r q = some (s_raw, d2, i) → d2 ≤ 144 →
        ∃ sc, (currentVsRef r lt (some l) lseg q).2.1 = some sc ∧
          l - 5 ≤ sc ∧ sc ≤ l + 30) ∧
    (currentVsRef refLine1000 7 (some 100) none (500, 0)).2.1 = some 130 := by
  constructor
  · intro r lt l lseg q s_raw d2 i hlen hproj hgate
    unfold currentVsRef
    rw [if_neg (by omega), hproj]
    dsimp only
    rw [if_neg (not_lt.mpr hgate)]
    dsimp only
    split_ifs with h30 h5
    · exact ⟨l + 30, rfl, by linarith, by linarith⟩
    · exact ⟨l - 5, rfl, by linarith, by linarith⟩
    · refine ⟨min (max 0 s_raw) r.lap_len, rfl, by linarith, by linarith⟩
  · with_unfolding_all decide

/-- Witness for C6 on the 1000 m reference. -/
theorem C6_witness :
    ∃ sc, (currentVsRef refLine1000 7 (some 100) none (500, 0)).2.1 = some sc ∧
      (100 : ℚ) - 5 ≤ sc ∧ sc ≤ 100 + 30 :=
  C6_continuity_clamp.1 refLine1000 7 100 none (500, 0) 500 0 0
    (by with_unfolding_all decide) (by with_unfolding_all decide)
    (by with_unfolding_all decide)

/-! ### C5 — delta computation -/

/-- C5: whenever `_current_vs_reference` produces a delta, that delta equals
`lap_elapsed − curve(s_c)` where `s_c` is the committed (gated) curvilinear
distance; the gating clamps every raw `s` into `[0, lap_len]` before the curve
is evaluated, so the curve is only read inside its knot domain (held at the
endpoints for out-of-domain raw values).  Concretely, on the reference with
knot `(500, 60 s)` and lap elapsed `58 s` at `s = 500`, the delta is `-2`
(negative = ahead of the reference). -/
theorem C5_delta_formula :
    (∀ (r : Reference) (lt : ℚ) (ls : Option ℚ) (lseg : Option Nat) (q : ℚ × ℚ) (δ : ℚ),
        (currentVsRef r lt ls lseg q).1 = some δ →
        ∃ sc, (currentVsRef r lt ls lseg q).2.1 = some sc ∧
          δ = lt - pchipEval r.ref_s r.ref_t sc ∧
          (0 ≤ r.lap_len → (∀ l, ls = some l → 0 ≤ l ∧ l ≤ r.lap_len) →
            0 ≤ sc ∧ sc ≤ r.lap_len)) ∧
    (build [0, 500] [0, 0] [0, 60] = some refLine500 ∧
      currentVsRef refLine500 58 none none (500, 0) = (some (-2), some 500, some 0)) := by
  constructor
  · intro r lt ls lseg q δ h
    unfold currentVsRef at h ⊢
    by_cases hlen : r.ref_s.length < 2
    · rw [if_pos hlen] at h
      exact absurd h (by simp)
    · rw [if_neg hlen] at h ⊢
      rcases hp : project_to_s r q with _ | ⟨s_raw, d2, i⟩
      · rw [hp] at h
        exact absurd h (by simp)
      · rw [hp] at h
        dsimp only at h ⊢
        rcases hg : (if (144 : ℚ) < d2 then ls else some s_raw) with _ | s1
        · rw [hg] at h
          exact absurd h (by simp)
        · rw [hg] at h
          dsimp only at h ⊢
          rcases ls with _ | l
          · refine ⟨min (max 0 s1) r.lap_len, rfl, by simpa using h.symm, ?_⟩
            intro hlap _
            constructor
            · exact le_min (le_max_left 0 s1) hlap
            · exact min_le_right _ _
          · dsimp only at h ⊢
            split_ifs at h ⊢ with h30 h5
            · refine ⟨l + 30, rfl, by simpa using h.symm, ?_⟩
              intro hlap hls
              obtain ⟨hl0, hll⟩ := hls l rfl
              have hmin : min (max 0 s1) r.lap_len ≤ r.lap_len := min_le_right _ _
              exact ⟨by linarith, by linarith⟩
            · refine ⟨l - 5, rfl, by simpa using h.symm, ?_⟩
              intro hlap hls
              obtain ⟨hl0, hll⟩ := hls l rfl
              have hmin : 0 ≤ min (max 0 s1) r.lap_len :=
                le_min (le_max_left 0 s1) hlap
              exact ⟨by linarith, by linarith⟩
            · refine ⟨min (max 0 s1) r.lap_len, rfl, by simpa using h.symm, ?_⟩
              intro hlap _
              exact ⟨le_min (le_max_left 0 s1) hlap, min_le_right _ _⟩
  · exact ⟨by with_unfolding_all decide, by with_unfolding_all decide⟩

/-- Witness for C5 on the 500 m reference at lap elapsed 58 s. -/
theorem C5_witness :
    ∃ sc, (currentVsRef refLine500 58 none none (500, 0)).2.1 = some sc ∧
      (-2 : ℚ) = 58 - pchipEval refLine500.ref_s refLine500.ref_t sc ∧
      (0 ≤ refLine500.lap_len →
        (∀ l, (none : Option ℚ) = some l → 0 ≤ l ∧ l ≤ refLine500.lap_len) →
        0 ≤ sc ∧ sc ≤ refLine500.lap_len) :=
  C5_delta_formula.1 refLine500 58 none none (500, 0) (-2)
    (by with_unfolding_all decide)

/-! ### C1 — reference lifetime across a lap change -/

/-- Frame with a lap count and an optional position, neither paused nor
loading. -/
def scnFrame (lc : Int) (p : Option (ℚ × ℚ)) : Option Frame :=
  some { paused := false, loading := false, lap_count := lc, pos := p }

/-- End-to-end scenario of the claim: lap 1 at positions `(0,0) @ 0 s`,
`(100,0) @ 10 s`, `(200,0) @ 20 s`, then the transition frame to lap 2 and a
lap-2 frame at `(100,0)` with lap elapsed `9 s`. -/
def scnS1 : WState := update easeLin initState (scnFrame 1 (some (0, 0))) 0

def scnS2 : WState := update easeLin scnS1 (scnFrame 1 (some (100, 0))) 10

def scnS3 : WState := update easeLin scnS2 (scnFrame 1 (some (200, 0))) 10

def scnS4 : WState := update easeLin scnS3 (scnFrame 2 (some (200, 0))) 0

def scnS5 : WState := update easeLin scnS4 (scnFrame 2 (some (100, 0))) 9

/-- Variant of the scenario with samples 50 m apart (inside the recorder's
`[5 m, 60 m]` window), so that the lap-1 buffer really holds three kept
samples at the transition. -/
def wsS1 : WState := update easeLin initState (scnFrame 1 (some (0, 0))) 0

def wsS2 : WState := update easeLin wsS1 (scnFrame 1 (some (50, 0))) 5

def wsS3 : WState := update easeLin wsS2 (scnFrame 1 (some (100, 0))) 5

def wsS4 : WState := update easeLin wsS3 (scnFrame 2 (some (100, 0))) 0

/-- C1: the claimed end-to-end behaviour fails on the code, for two reasons.
The builder in isolation does satisfy the claim's arithmetic (first conjunct:
`lap_length = 200` and `curve(100) = 10` on the claimed samples).  But (i) the
scenario's samples are 100 m apart, beyond the recorder's 60 m teleport gate,
so only the first sample is ever buffered (second conjunct) and nothing can be
built at the transition (third block); and (ii) even with well-spaced samples
(last block), where `build` succeeds on the buffered lap, the assignment
`self.lap_index = lap_count` that follows the build runs the setter whose
trailing loop sets all five reference attributes to `None` — the reference is
destroyed at the very moment the lap index changes, no delta is ever published
and the display stays blank at the 9 s query frame. -/
theorem C1_reference_destroyed_at_lap_change :
    ((build [0, 100, 200] [0, 0, 0] [0, 10, 20]).map
        (fun r => (r.lap_len, pchipEval r.ref_s r.ref_t 100)) = some (200, 10)) ∧
    (scnS3.xs = [0] ∧ scnS3.times = [0] ∧ scnS3.lap_time = 20) ∧
    (scnS4.ref = none ∧ scnS4.lap_index = 2) ∧
    (scnS5.ref = none ∧ scnS5.feed_has = false ∧ scnS5.display = none ∧
      scnS5.disp_delta = none) ∧
    (wsS3.xs = [0, 50, 100] ∧ (build wsS3.xs wsS3.zs wsS3.times).isSome = true ∧
      wsS4.ref = none ∧ wsS4.lap_index = 2) := by
  refine ⟨?_, ⟨?_, ?_, ?_⟩, ⟨?_, ?_⟩, ⟨?_, ?_, ?_, ?_⟩, ⟨?_, ?_, ?_, ?_⟩⟩ <;>
    with_unfolding_all decide

/-! ### C9 — outbound delta option and its consumers -/

/-- C9: in every reachable widget state the published pair
`(feed.delta_s, feed.has_delta)`, read as the option
`delta_seconds = if has_delta then some delta_s else none`, is `none` exactly
when no comparison is currently possible — both sides are in fact always
false/`none` in reachable states, because the `lap_index` setter destroys
every built reference before the frame ends (see C1), so `has_delta` is never
set.  The predicted-lap consumer computes
`last_lap_time * 1e-3 + delta` with `delta = 0` exactly when the option is
`none`. -/
theorem C9_outbound_delta_option :
    (∀ s : WState, Reachable s →
        (deltaOpt s = none ↔ ¬ comparisonPossible s) ∧
        deltaOpt s = none ∧ ¬ comparisonPossible s) ∧
    (∀ (fd : ℚ) (fh : Bool) (lc : Int) (ms shown : ℚ), lc ≠ 0 → ms ≠ 0 →
        predictedUpdate fd fh lc ms shown =
          ms * (1/1000) +
            (match (if fh then some fd else none : Option ℚ) with
             | some d => d
             | none => 0)) := by
  constructor
  · intro s hs
    obtain ⟨href, hfeed⟩ := reachable_no_ref hs
    have hnone : deltaOpt s = none := by simp [deltaOpt, hfeed]
    have hncp : ¬ comparisonPossible s := by
      intro hc
      rcases hc with ⟨h1, _⟩
      rw [href] at h1
      simp at h1
    exact ⟨iff_of_true hnone hncp, hnone, hncp⟩
  · intro fd fh lc ms shown hlc hms
    unfold predictedUpdate predictedLapValue
    rw [if_neg hlc, if_neg hms]
    cases fh <;> simp

/-- Witness for C9 at the initial state. -/
theorem C9_witness :
    (deltaOpt initState = none ↔ ¬ comparisonPossible initState) ∧
    deltaOpt initState = none ∧ ¬ comparisonPossible initState :=
  C9_outbound_delta_option.1 initState Reachable.init

/-! ### C10 — reference validity invariants and the builder failure modes -/

/-- C10: the validity-invariant half of the claim holds — every reference the
builder completes satisfies `len(ref_s) = len(ref_t) ≥ 2`, `ref_s` strictly
increasing and `lap_len = ref_s.last > 0` (first conjunct), and with fewer
than two samples the method returns leaving every attribute untouched (second
conjunct).  The failure-mode half is wrong about the code: the bridge
conjuncts relate the completed-run abstraction `build` to the faithful
attribute model `buildFull` — on every completed run they agree (third
conjunct) — and show that whenever at least two samples are buffered but no
reference can be completed (fewer than two knots survive the `1e-3` filter,
or the knots fail the strict-increase validation), the `PchipInterpolator`
constructor raises AFTER `_ref_s`/`_ref_t`/`_lap_len_m` have already been
overwritten (fourth conjunct) — not a graceful `None` return.  The closed
conjuncts evaluate this at a concrete failing input: two buffered samples
`0.5 mm` apart while the 1000 m reference is installed; the prior reference
knot array is clobbered (`_ref_s` becomes the one-element `[0]`, `_lap_len_m`
becomes `0`) while the stale spline and segment table survive, the exception
aborts the frame, and only the `size ≥ 2` test inside `_has_lap_reference`
keeps the mangled state from answering queries. -/
theorem C10_short_filter_raises_after_partial_writes :
    (∀ (xs zs ts : List ℚ) (r : Reference), xs.length = zs.length →
        xs.length = ts.length → build xs zs ts = some r →
        r.ref_s.length = r.ref_t.length ∧ 2 ≤ r.ref_s.length ∧
        List.Chain' (· < ·) r.ref_s ∧
        r.lap_len = r.ref_s.getLastD 0 ∧ 0 < r.lap_len) ∧
    (∀ (xs zs ts : List ℚ) (st : RefAttrs), xs.length < 2 →
        build xs zs ts = none ∧ buildFull xs zs ts st = .ok st) ∧
    (∀ (xs zs ts : List ℚ) (st : RefAttrs) (r : Reference), build xs zs ts = some r →
        buildFull xs zs ts st = .ok (refAttrsOf r)) ∧
    (∀ (xs zs ts : List ℚ) (st : RefAttrs), ¬ xs.length < 2 → build xs zs ts = none →
        buildFull xs zs ts st =
          .error { st with
            ref_s := some (survivors xs zs),
            ref_t := some (maskFilter (keepMask xs zs) ts),
            lap_len := some ((survivors xs zs).getLastD 0) }) ∧
    ((refAttrsOf refLine1000).hasLap = true ∧
      buildFull [0, 1/2000] [0, 0] [0, 1] (refAttrsOf refLine1000) =
        .error { refAttrsOf refLine1000 with
          ref_s := some [0], ref_t := some [0], lap_len := some 0 } ∧
      some [(0 : ℚ)] ≠ (refAttrsOf refLine1000).ref_s ∧
      ({ refAttrsOf refLine1000 with
         ref_s := some [0], ref_t := some [0], lap_len := some 0 } : RefAttrs).hasLap =
        false) := by
  refine ⟨?_, ?_, ?_, ?_, ?_, ?_, ?_, ?_⟩
  · intro xs zs ts r hz ht hb
    unfold build at hb
    by_cases hlen : xs.length < 2
    · rw [if_pos hlen] at hb
      exact absurd hb (by simp)
    · rw [if_neg hlen] at hb
      dsimp only at hb
      by_cases hs2 : (survivors xs zs).length < 2
      · rw [if_pos hs2] at hb
        exact absurd hb (by simp)
      · rw [if_neg hs2] at hb
        by_cases hch : chainLt (survivors xs zs) = true
        · rw [if_neg (by simpa using hch)] at hb
          have hr := Option.some.inj hb
          subst hr
          dsimp only
          refine ⟨?_, by omega, (chainLt_iff _).mp hch, rfl, ?_⟩
          · unfold survivors
            apply maskFilter_length_congr
            rw [sVals_length xs zs hz (by omega)]
            exact ht
          · have hsc := survivors_cons xs zs
            have hmem :=
              (maskFilter_cumt_chain (segLens xs zs) (segLens_nonneg xs zs) 0 0 le_rfl).2
            set rest := maskFilter ((segLens xs zs).map fun l => decide ((1/1000 : ℚ) < l))
              (cumt 0 (segLens xs zs)) with hrdef
            have hne : rest ≠ [] := by
              intro hemp
              rw [hsc, hemp] at hs2
              simp at hs2
            have hlast : (survivors xs zs).getLastD 0 = rest.getLastD 0 := by
              rw [hsc]
              exact List.getLastD_cons 0 0 rest
            rw [hlast]
            exact hmem _ (getLastD_mem rest 0 hne)
        · rw [if_pos (by simpa using hch)] at hb
          exact absurd hb (by simp)
  · intro xs zs ts st h
    constructor
    · unfold build
      rw [if_pos h]
    · unfold buildFull
      rw [if_pos h]
  · intro xs zs ts st r hb
    unfold build at hb
    by_cases hlen : xs.length < 2
    · rw [if_pos hlen] at hb
      exact absurd hb (by simp)
    · rw [if_neg hlen] at hb
      dsimp only at hb
      by_cases hs2 : (survivors xs zs).length < 2
      · rw [if_pos hs2] at hb
        exact absurd hb (by simp)
      · rw [if_neg hs2] at hb
        by_cases hch : chainLt (survivors xs zs) = true
        · rw [if_neg (by simpa using hch)] at hb
          have hr := Option.some.inj hb
          unfold buildFull
          rw [if_neg hlen]
          dsimp only
          rw [if_neg hs2, if_neg (by simpa using hch), ← hr]
          rfl
        · rw [if_pos (by simpa using hch)] at hb
          exact absurd hb (by simp)
  · intro xs zs ts st hlen hb
    unfold build at hb
    rw [if_neg hlen] at hb
    dsimp only at hb
    unfold buildFull
    rw [if_neg hlen]
    dsimp only
    by_cases hs2 : (survivors xs zs).length < 2
    · rw [if_pos hs2]
    · rw [if_neg hs2] at hb ⊢
      by_cases hch : chainLt (survivors xs zs) = true
      · rw [if_neg (by simpa using hch)] at hb
        exact absurd hb (by simp)
      · rw [if_pos (by simpa using hch)]
  · with_unfolding_all decide
  · with_unfolding_all rfl
  · with_unfolding_all decide
  · with_unfolding_all decide

/-- Witness for C10: the bridge error case applied at the concrete failing
input (two buffered samples 0.5 mm apart, prior 1000 m reference
installed). -/
theorem C10_witness :
    buildFull [0, 1/2000] [0, 0] [0, 1] (refAttrsOf refLine1000) =
      .error { refAttrsOf refLine1000 with
        ref_s := some (survivors [0, 1/2000] [0, 0]),
        ref_t := some (maskFilter (keepMask [0, 1/2000] [0, 0]) [0, 1]),
        lap_len := some ((survivors [0, 1/2000] [0, 0]).getLastD 0) } :=
  C10_short_filter_raises_after_partial_writes.2.2.2.1 [0, 1/2000] [0, 0] [0, 1]
    (refAttrsOf refLine1000) (by with_unfolding_all decide)
    (by with_unfolding_all decide)

end InstrumentCluster
